import Mathlib

/-!
Shallow embedding of the esp32-ili9341-slint firmware core, verified against
its natural-language specification.

The embedding translates the pure decision logic of the source files:
* `src/touch_input.rs` (`Xpt2046TouchInput::get_input`) and
  `src/main.rs` (`Touch::update`) — the touch Mealy machine;
* `src/slint_renderer.rs` / `src/main.rs` (`process_line`) — scanline
  streaming;
* `src/http_client.rs` (`HttpClient::request`) — the HTTP read loop with
  deadline;
* `src/ws_client.rs` (`WsClient::connect`, `poll_recv`) — WebSocket
  handshake and frame polling;
* `src/main.rs` / `src/bin/main.rs` (`init_sd_card`) — bounded-retry SD
  mount.

External collaborators (the xpt2046 driver, the mipidsi display, the
network stack sockets, the sdmmc volume manager) are treated as black
boxes: their results enter the model as explicit input scripts, and the
commands the code issues to them are recorded as explicit output values.
Machine integers that cannot overflow on the valid input ranges are
modelled as `Int`/`Nat`.
-/

namespace Esp32Slint

/-! ### Touch input (`src/touch_input.rs`, `src/main.rs`)

`Xpt2046TouchInput::get_input` polls the xpt2046 driver and classifies the
sample against the stored `last_pos`. A raw sample is modelled as the
driver-visible data: the `is_touched` flag and the raw point returned by
`get_touch_point`. -/

/-- A raw touch sample as seen by `get_input`: the `is_touched` flag and the
raw `(x, y)` point from the driver. -/
structure TouchSample where
  touched : Bool
  rawx : Int
  rawy : Int
deriving DecidableEq, Repr

/-- `TouchInputResponse` from `src/touch_input.rs`. -/
inductive TouchInputResponse where
  | Moved (x y : Int)
  | Pressed (x y : Int)
  | Released (x y : Int)
  | NoInput
deriving DecidableEq, Repr

/-- The coordinate remap applied in both `get_input`
(`src/touch_input.rs:78-79`) and `Touch::update` (`src/main.rs:156-157`):
`x = screen_width - 2 * p.x; y = 2 * p.y`. -/
def remap (screenWidth rawx rawy : Int) : Int × Int :=
  (screenWidth - 2 * rawx, 2 * rawy)

/-- `Xpt2046TouchInput::get_input` (`src/touch_input.rs:71-96`), as a pure
function of the screen width, the stored `last_pos`, and the polled sample.
Returns the response together with the new `last_pos`. The inner `if`
mirrors the guarded match arm `Some(prev) if (prev.0 != x && prev.1 != y)`;
both that arm and the catch-all arm produce `Moved`. -/
def getInput (screenWidth : Int) (lastPos : Option (Int × Int))
    (s : TouchSample) : TouchInputResponse × Option (Int × Int) :=
  if s.touched then
    let x := screenWidth - 2 * s.rawx
    let y := 2 * s.rawy
    let resp :=
      match lastPos with
      | some prev =>
          if prev.1 ≠ x ∧ prev.2 ≠ y then TouchInputResponse.Moved x y
          else TouchInputResponse.Moved x y
      | none => TouchInputResponse.Pressed x y
    (resp, some (x, y))
  else
    match lastPos with
    | some prev => (TouchInputResponse.Released prev.1 prev.2, none)
    | none => (TouchInputResponse.NoInput, none)

/-- The window events dispatched by `Touch::update` (`src/main.rs:146-181`),
positions kept in physical pixels (the source converts to logical
coordinates through the window scale factor before dispatching). -/
inductive WindowEvent where
  | PointerMoved (x y : Int)
  | PointerPressed (x y : Int)
  | PointerReleased (x y : Int)
  | PointerExited
deriving DecidableEq, Repr

/-- `Touch::update` (`src/main.rs:146-181`): the list of events dispatched
during one successful poll, together with the new `last_pos`. The inner
`if` mirrors the guarded arm `Some(prev) if prev != pos`; both it and the
catch-all arm produce `PointerMoved`. -/
def touchUpdate (screenWidth : Int) (lastPos : Option (Int × Int))
    (s : TouchSample) : List WindowEvent × Option (Int × Int) :=
  if s.touched then
    let x := screenWidth - 2 * s.rawx
    let y := 2 * s.rawy
    let ev :=
      match lastPos with
      | some prev =>
          if prev ≠ (x, y) then WindowEvent.PointerMoved x y
          else WindowEvent.PointerMoved x y
      | none => WindowEvent.PointerPressed x y
    ([ev], some (x, y))
  else
    match lastPos with
    | some prev =>
        ([WindowEvent.PointerReleased prev.1 prev.2, WindowEvent.PointerExited], none)
    | none => ([], none)

/-! ### Scanline streaming (`src/slint_renderer.rs:38-56`, `src/main.rs:100-118`)

`process_line` fills `self.buffer[range]` through the caller-supplied
`render_fn`, then calls `display.set_pixels(range.start, line, range.end,
line, buf.iter().map(|x| ColorFormat::from(RawU16::new(x.0))))`. The line
buffer is a reusable `[Rgb565Pixel; 320]`, modelled as a `List Nat` of
16-bit packed values. The display is a black box: the `set_pixels` call is
recorded with its literal arguments, and the packed-to-native conversion is
the abstract injection `NativePixel.ofRaw`. -/

/-- A pixel in the display's native format, produced from a 16-bit packed
value by the (black-box) conversion `ColorFormat::from(RawU16::new(v))`. -/
inductive NativePixel where
  | ofRaw (v : Nat)
deriving DecidableEq, Repr

/-- The `set_pixels` call issued to the display: the address-window bounds
handed to the driver and the streamed pixel sequence. -/
structure SetPixelsCall where
  sx : Nat
  sy : Nat
  ex : Nat
  ey : Nat
  pixels : List NativePixel
deriving DecidableEq, Repr

/-- `process_line` (`src/slint_renderer.rs:38-56` and identically
`src/main.rs:100-118`): fill `buffer[start..stop]` via the producer, then
stream that sub-slice, converted, with window arguments
`(range.start, line, range.end, line)`. The producer models `render_fn`,
which overwrites the sub-slice it is handed. Returns the new buffer
contents and the recorded display call. -/
def processLine (buffer : List Nat) (line start stop : Nat)
    (producer : List Nat → List Nat) : List Nat × SetPixelsCall :=
  let sub := (buffer.drop start).take (stop - start)
  let filled := producer sub
  let newBuf := buffer.take start ++ filled ++ buffer.drop stop
  (newBuf, ⟨start, line, stop, line, filled.map NativePixel.ofRaw⟩)

/-! ### HTTP client (`src/http_client.rs:48-112`)

After writing the request, `HttpClient::request` loops on `socket.read`
into a 256-byte scratch buffer:
* `Ok(0)` breaks (EOF);
* `Ok(n)` appends the chunk when it is valid UTF-8, otherwise
  `return Err("utf8 error")` — an early return that skips everything after
  the loop;
* `Err(_)` breaks;
* after an appended chunk, `if Instant::now() > deadline` breaks.

After the loop it calls `socket.disconnect()` and services `socket.work()`
until a 5-second grace deadline, then returns `Ok(out)`.

Each socket read is modelled as a scripted event carrying the wall-clock
time at which the read returns and its result. -/

/-- The result of one `socket.read` call: EOF, a valid-UTF-8 chunk, a
non-UTF-8 chunk, or a read error. -/
inductive ReadResult where
  | ok0
  | okText (s : String)
  | okBinary
  | err
deriving DecidableEq, Repr

/-- One scripted socket read: the time `Instant::now()` shows when the read
returns, and the read's result. -/
structure ReadEvent where
  time : Nat
  res : ReadResult
deriving DecidableEq, Repr

/-- Outcome of the accumulation loop in `request`. `finished` is any of the
three `break` paths (EOF, read error, deadline); `utf8Error` is the early
`return Err("utf8 error")`; `blocked` models a script that ran out while
the loop was still reading (the real loop would block in `socket.read`). -/
inductive LoopOutcome where
  | finished (acc : String)
  | utf8Error
  | blocked (acc : String)
deriving DecidableEq, Repr

/-- The accumulation loop of `request` (`src/http_client.rs:85-102`) over a
finite read script. The deadline test is reached only after a chunk has
been appended, mirroring the source where the check follows the `match`. -/
def readLoop (deadline : Nat) (acc : String) : List ReadEvent → LoopOutcome
  | [] => LoopOutcome.blocked acc
  | e :: rest =>
    match e.res with
    | ReadResult.ok0 => LoopOutcome.finished acc
    | ReadResult.err => LoopOutcome.finished acc
    | ReadResult.okBinary => LoopOutcome.utf8Error
    | ReadResult.okText s =>
        let acc2 := acc ++ s
        if deadline < e.time then LoopOutcome.finished acc2
        else readLoop deadline acc2 rest

/-- Grace period serviced after disconnect: `Duration::from_secs(5)`
(`src/http_client.rs:106`). -/
def graceSecs : Nat := 5

/-- What `request` does from the read loop onward: the returned value,
whether `socket.disconnect()` was reached, and the grace window serviced
via `socket.work()` (in seconds; 0 when the teardown is skipped). -/
structure RequestOutcome where
  result : Except String String
  disconnected : Bool
  grace : Nat
deriving Repr

/-- The read-and-teardown phase of `HttpClient::request`
(`src/http_client.rs:82-111`): run the loop; on the early UTF-8 return the
function exits with `Err("utf8 error")` before `disconnect`; on any `break`
it disconnects, services the 5-second grace window, and returns `Ok(out)`.
A `blocked` script is mapped like a break only to keep the function total;
no theorem relies on it. -/
def requestReadPhase (deadline : Nat) (script : List ReadEvent) : RequestOutcome :=
  match readLoop deadline "" script with
  | LoopOutcome.utf8Error => ⟨Except.error "utf8 error", false, 0⟩
  | LoopOutcome.finished acc => ⟨Except.ok acc, true, graceSecs⟩
  | LoopOutcome.blocked acc => ⟨Except.ok acc, true, graceSecs⟩

/-! ### WebSocket client (`src/ws_client.rs`)

`WsClient::connect` performs `socket.open(self.ip, 8765)`, then
`ws.client_connect` (building the upgrade request and the client key into
`ws_tx`), `socket.write_all`, `socket.read`, and `ws.client_accept`
(validating the server's accept value against the key). Each step's `?`
returns early on failure, leaving `self` untouched; only after all five
does it set `self.ws_key = Some(key); self.connected = true`. The socket
and the embedded-websocket library are black boxes whose success/failure
enters as a script. -/

/-- Port used by `WsClient::connect`: `socket.open(self.ip, 8765)`
(`src/ws_client.rs:52`). -/
def wsPort : Nat := 8765

/-- The session state mutated by `WsClient`: the stored handshake key and
the connected flag (keys are abstract). -/
structure WsState where
  wsKey : Option Nat
  connected : Bool
deriving DecidableEq, Repr

/-- Fresh session from `WsClient::new` (`src/ws_client.rs:30-46`):
`ws_key: None, connected: false`. -/
def wsNew : WsState := ⟨none, false⟩

/-- Scripted results of the five fallible handshake steps of
`WsClient::connect`, plus the client key `client_connect` would produce. -/
structure HandshakeScript where
  openOk : Bool
  clientConnectOk : Bool
  writeOk : Bool
  readOk : Bool
  acceptOk : Bool
  key : Nat
deriving DecidableEq, Repr

/-- `WsClient::connect` (`src/ws_client.rs:48-77`): early-return on the
first failing step with the state unchanged; on full success store the key
and set `connected`. Also records the port passed to `socket.open`. -/
def wsConnect (st : WsState) (h : HandshakeScript) :
    Except String Unit × WsState × Nat :=
  if h.openOk = false then (Except.error "open failed", st, wsPort)
  else if h.clientConnectOk = false then (Except.error "ws connect", st, wsPort)
  else if h.writeOk = false then (Except.error "ws write", st, wsPort)
  else if h.readOk = false then (Except.error "ws read", st, wsPort)
  else if h.acceptOk = false then (Except.error "ws accept", st, wsPort)
  else (Except.ok (), ⟨some h.key, true⟩, wsPort)

/-- The result `framer.read` yields during one `poll_recv`: a fully decoded
text frame, some other successfully decoded result, or a decode/read
error. -/
inductive FrameReadResult where
  | text (s : String)
  | other
  | decodeError
deriving DecidableEq, Repr

/-- `WsClient::poll_recv` (`src/ws_client.rs:108-132`): return immediately
when not connected; otherwise surface a text frame (the source prints it)
and silently absorb everything else. Returns the surfaced text (if any)
and the session state after the call. -/
def pollRecv (st : WsState) (fr : FrameReadResult) : Option String × WsState :=
  if st.connected = false then (none, st)
  else
    match fr with
    | FrameReadResult.text s => (some s, st)
    | FrameReadResult.other => (none, st)
    | FrameReadResult.decodeError => (none, st)

/-! ### SD-card bring-up (`src/main.rs:191-226`, `src/bin/main.rs:198-233`)

`init_sd_card` loops: `attempt += 1`; on `open_volume` success it runs the
`open_root_dir → open_file_in_dir → read` chain, where every failure is
swallowed by `if let Ok(..)` nesting, and breaks; on failure it breaks once
`attempt >= max_attempts`, else delays 50 ms and retries. The function
returns `()` — it has no error channel. -/

/-- Outcome of the inner open-root/open-file/read chain after a successful
mount (`src/main.rs:207-214`). Every constructor is swallowed. -/
inductive InnerOutcome where
  | rootDirFail
  | openFileFail
  | readFail
  | readOk (n : Nat)
deriving DecidableEq, Repr

/-- Scripted outcome of one `open_volume` attempt. -/
inductive MountOutcome where
  | mountFail
  | mountOk (inner : InnerOutcome)
deriving DecidableEq, Repr

/-- `max_attempts` from `src/main.rs:202`. -/
def maxAttempts : Nat := 5

/-- The inter-attempt delay: `Delay::new().delay_millis(50u32)`
(`src/main.rs:222`). -/
def retryDelayMs : Nat := 50

/-- Observable effect of one `init_sd_card` run: how many mount attempts
were made and the delays (in ms, in order) performed between consecutive
attempts. -/
structure SdRun where
  attempts : Nat
  delays : List Nat
deriving DecidableEq, Repr

/-- The retry loop of `init_sd_card` (`src/main.rs:201-225`), driven by a
script of per-attempt outcomes. `attempt` is the counter before the
increment at the top of the loop body. `none` models a script exhausted
while the loop still wanted another attempt (the real loop would call
`open_volume` again); for any script covering `maxAttempts` entries this
cannot happen. -/
def sdLoop (attempt : Nat) : List MountOutcome → Option SdRun
  | [] => none
  | o :: rest =>
    let a := attempt + 1
    match o with
    | MountOutcome.mountOk _ => some ⟨a, []⟩
    | MountOutcome.mountFail =>
        if maxAttempts ≤ a then some ⟨a, []⟩
        else
          match sdLoop a rest with
          | some r => some ⟨r.attempts, retryDelayMs :: r.delays⟩
          | none => none

/-- `init_sd_card` (`src/main.rs:191-226`): run the retry loop from
`attempt = 0`. A `some` result is the routine returning normally — its
return type is `()`, so it cannot raise an error. -/
def initSdCard (script : List MountOutcome) : Option SdRun :=
  sdLoop 0 script

/-! ## Theorems -/

/-- **C1**: For every successful touch poll (`get_input`, and `Touch::update`
dispatching window events): touched with no stored point yields `Pressed` at
the remapped coordinate and stores the point; touched with a stored point
(equal or different) yields `Moved` at the remapped coordinate and stores the
point; not touched with a stored point yields `Released` at the stored point —
`Touch::update` following it unconditionally with a `PointerExited`
notification — and clears the stored point; not touched with no stored point
yields `NoInput` (`Touch::update` dispatches nothing). -/
theorem touch_poll_transition (w : Int) (p : Option (Int × Int)) (s : TouchSample) :
    (s.touched = true → p = none →
      getInput w p s
        = (TouchInputResponse.Pressed (w - 2 * s.rawx) (2 * s.rawy),
            some (w - 2 * s.rawx, 2 * s.rawy)) ∧
      touchUpdate w p s
        = ([WindowEvent.PointerPressed (w - 2 * s.rawx) (2 * s.rawy)],
            some (w - 2 * s.rawx, 2 * s.rawy))) ∧
    (∀ q : Int × Int, s.touched = true → p = some q →
      getInput w p s
        = (TouchInputResponse.Moved (w - 2 * s.rawx) (2 * s.rawy),
            some (w - 2 * s.rawx, 2 * s.rawy)) ∧
      touchUpdate w p s
        = ([WindowEvent.PointerMoved (w - 2 * s.rawx) (2 * s.rawy)],
            some (w - 2 * s.rawx, 2 * s.rawy))) ∧
    (∀ q : Int × Int, s.touched = false → p = some q →
      getInput w p s = (TouchInputResponse.Released q.1 q.2, none) ∧
      touchUpdate w p s
        = ([WindowEvent.PointerReleased q.1 q.2, WindowEvent.PointerExited], none)) ∧
    (s.touched = false → p = none →
      getInput w p s = (TouchInputResponse.NoInput, none) ∧
      touchUpdate w p s = ([], none)) := by
  refine ⟨?_, ?_, ?_, ?_⟩
  · intro ht hp
    subst hp
    simp [getInput, touchUpdate, ht]
  · intro q ht hp
    subst hp
    simp [getInput, touchUpdate, ht]
  · intro q ht hp
    subst hp
    simp [getInput, touchUpdate, ht]
  · intro ht hp
    subst hp
    simp [getInput, touchUpdate, ht]

/-- Witness for C1: a concrete press, move, release and idle poll. -/
theorem touch_poll_transition_witness :
    getInput 320 none ⟨true, 10, 20⟩
      = (TouchInputResponse.Pressed 300 40, some (300, 40)) ∧
    getInput 320 (some (300, 40)) ⟨true, 10, 20⟩
      = (TouchInputResponse.Moved 300 40, some (300, 40)) ∧
    touchUpdate 320 (some (300, 40)) ⟨false, 0, 0⟩
      = ([WindowEvent.PointerReleased 300 40, WindowEvent.PointerExited], none) ∧
    getInput 320 none ⟨false, 0, 0⟩ = (TouchInputResponse.NoInput, none) := by
  refine ⟨?_, ?_, ?_, ?_⟩
  · have h := ((touch_poll_transition 320 none ⟨true, 10, 20⟩).1 rfl rfl).1
    norm_num at h
    exact h
  · have h := ((touch_poll_transition 320 (some (300, 40)) ⟨true, 10, 20⟩).2.1
      (300, 40) rfl rfl).1
    norm_num at h
    exact h
  · exact ((touch_poll_transition 320 (some (300, 40)) ⟨false, 0, 0⟩).2.2.1
      (300, 40) rfl rfl).2
  · exact ((touch_poll_transition 320 none ⟨false, 0, 0⟩).2.2.2 rfl rfl).1

/-- **C2**: the coordinate remap computes exactly
`(w − 2·rawX, 2·rawY)` — and it is the map both `get_input` and
`Touch::update` store on a touched sample — it is injective (on all of
`ℤ × ℤ`, hence on the valid raw input range), and
`remap 320 (10, 20) = (300, 40)`. -/
theorem remap_correct (w : Int) :
    (∀ rx ry : Int, remap w rx ry = (w - 2 * rx, 2 * ry)) ∧
    (∀ (p : Option (Int × Int)) (s : TouchSample), s.touched = true →
      (getInput w p s).2 = some (remap w s.rawx s.rawy) ∧
      (touchUpdate w p s).2 = some (remap w s.rawx s.rawy)) ∧
    (∀ a b : Int × Int, remap w a.1 a.2 = remap w b.1 b.2 → a = b) ∧
    remap 320 10 20 = (300, 40) := by
  refine ⟨fun rx ry => rfl, ?_, ?_, by norm_num [remap]⟩
  · intro p s ht
    cases p <;> simp [getInput, touchUpdate, remap, ht]
  · intro a b h
    obtain ⟨a1, a2⟩ := a
    obtain ⟨b1, b2⟩ := b
    simp only [remap, Prod.mk.injEq] at h ⊢
    omega

/-- Witness for C2: the stored point of a concrete touched poll is the
remapped coordinate, and injectivity applied at a concrete pair. -/
theorem remap_correct_witness :
    (getInput 320 none ⟨true, 10, 20⟩).2 = some (300, 40) ∧
    ((10, 20) : Int × Int) = (10, 20) := by
  have h := remap_correct 320
  constructor
  · have h1 := (h.2.1 none ⟨true, 10, 20⟩ rfl).1
    rw [h1]
    rw [h.2.2.2]
  · exact h.2.2.1 (10, 20) (10, 20) rfl

/-- **C3**: `process_line` fills exactly the sub-slice `[start, stop)` of the
reusable line buffer via the producer (the buffer keeps its length, is
unchanged before `start` and from `stop` on, and holds the producer's output
on `[start, stop)`), and streams to the display exactly those columns of the
given row: the address-window arguments are `(start, line, stop, line)` —
bounding columns `[start, stop)` of row `line` — and the streamed pixels are
the producer's 16-bit packed values converted to the native format, one per
column of the range. -/
theorem process_line_exact (buffer : List Nat) (line start stop : Nat)
    (producer : List Nat → List Nat)
    (hstart : start ≤ stop) (hstop : stop ≤ buffer.length)
    (hlen : (producer ((buffer.drop start).take (stop - start))).length = stop - start) :
    (processLine buffer line start stop producer).1.length = buffer.length ∧
    (processLine buffer line start stop producer).1.take start = buffer.take start ∧
    (processLine buffer line start stop producer).1.drop stop = buffer.drop stop ∧
    ((processLine buffer line start stop producer).1.drop start).take (stop - start)
      = producer ((buffer.drop start).take (stop - start)) ∧
    (processLine buffer line start stop producer).2.sx = start ∧
    (processLine buffer line start stop producer).2.sy = line ∧
    (processLine buffer line start stop producer).2.ex = stop ∧
    (processLine buffer line start stop producer).2.ey = line ∧
    (processLine buffer line start stop producer).2.pixels
      = (producer ((buffer.drop start).take (stop - start))).map NativePixel.ofRaw ∧
    (processLine buffer line start stop producer).2.pixels.length = stop - start := by
  have hA : (buffer.take start).length = start := by
    simp only [List.length_take]
    omega
  have hAF : (buffer.take start
      ++ producer ((buffer.drop start).take (stop - start))).length = stop := by
    simp only [List.length_append, hA, hlen]
    omega
  refine ⟨?_, ?_, ?_, ?_, rfl, rfl, rfl, rfl, rfl, ?_⟩
  · simp only [processLine, List.length_append, hA, hlen, List.length_drop]
    omega
  · simp only [processLine, List.append_assoc]
    rw [List.take_left' hA]
  · simp only [processLine]
    rw [List.drop_left' hAF]
  · simp only [processLine, List.append_assoc]
    rw [List.drop_left' hA, List.take_left' hlen]
  · simp only [processLine, List.length_map, hlen]

/-- Witness for C3: a concrete four-pixel buffer, row 7, columns `[1, 3)`,
producer adding 10 to each packed value. -/
theorem process_line_exact_witness :
    (processLine [1, 2, 3, 4] 7 1 3 (fun xs => xs.map (fun v => v + 10))).1.length = 4 ∧
    (processLine [1, 2, 3, 4] 7 1 3 (fun xs => xs.map (fun v => v + 10))).1.take 1 = [1] ∧
    (processLine [1, 2, 3, 4] 7 1 3 (fun xs => xs.map (fun v => v + 10))).2.pixels
      = [NativePixel.ofRaw 12, NativePixel.ofRaw 13] := by
  have h := process_line_exact [1, 2, 3, 4] 7 1 3 (fun xs => xs.map (fun v => v + 10))
    (by decide) (by decide) (by decide)
  refine ⟨by simpa using h.1, by simpa using h.2.1, ?_⟩
  rw [h.2.2.2.2.2.2.2.2.1]
  decide

/-! ### HTTP read-loop lemmas -/

/-- Script fragment of valid-UTF-8 chunks given as (time, text) pairs. -/
def textEvents (l : List (Nat × String)) : List ReadEvent :=
  l.map fun ts => ⟨ts.1, ReadResult.okText ts.2⟩

/-- Concatenation, in arrival order, of the texts of a chunk list. -/
def concatChunks : List (Nat × String) → String
  | [] => ""
  | ts :: rest => ts.2 ++ concatChunks rest

/-- Running the loop through a prefix of in-deadline text chunks appends
their concatenation to the accumulator and continues with the rest. -/
theorem readLoop_text_phase (deadline : Nat) (pre : List (Nat × String))
    (hpre : ∀ ts ∈ pre, ts.1 ≤ deadline) (acc : String) (rest : List ReadEvent) :
    readLoop deadline acc (textEvents pre ++ rest)
      = readLoop deadline (acc ++ concatChunks pre) rest := by
  induction pre generalizing acc with
  | nil => simp [textEvents, concatChunks]
  | cons hd tl ih =>
      have hhd : hd.1 ≤ deadline := hpre hd (List.mem_cons_self hd tl)
      have htl : ∀ ts ∈ tl, ts.1 ≤ deadline := fun ts hts => hpre ts (List.mem_cons_of_mem hd hts)
      have hcons : textEvents (hd :: tl) ++ rest
          = ⟨hd.1, ReadResult.okText hd.2⟩ :: (textEvents tl ++ rest) := by
        simp [textEvents]
      rw [hcons]
      simp only [readLoop, concatChunks]
      rw [if_neg (by omega)]
      rw [ih htl (acc ++ hd.2), String.append_assoc]

/-- **C5**: when the socket yields valid-UTF-8 chunks, each arriving no
later than the deadline, followed by a zero-length read (peer closed), the
call returns `Ok` and the returned text is the concatenation of the chunks
in arrival order. -/
theorem request_eof_concat (deadline : Nat) (chunks : List (Nat × String))
    (teof : Nat) (hpre : ∀ ts ∈ chunks, ts.1 ≤ deadline) :
    requestReadPhase deadline (textEvents chunks ++ [⟨teof, ReadResult.ok0⟩])
      = ⟨Except.ok (concatChunks chunks), true, graceSecs⟩ := by
  unfold requestReadPhase
  rw [readLoop_text_phase deadline chunks hpre "" _]
  simp [readLoop, String.empty_append]

/-- Witness for C5: two chunks then EOF concatenate to "Hello, world". -/
theorem request_eof_concat_witness :
    requestReadPhase 10 (textEvents [(1, "Hello, "), (2, "world")]
        ++ [⟨3, ReadResult.ok0⟩])
      = ⟨Except.ok "Hello, world", true, graceSecs⟩ := by
  have h := request_eof_concat 10 [(1, "Hello, "), (2, "world")] 3 (by decide)
  rw [h]
  rfl

/-- **C10**: a `socket.read` error during the accumulation loop exits the
loop like EOF does: the call returns `Ok` with the text accumulated so far
(and still tears the socket down), never an error. -/
theorem request_read_error_ok (deadline : Nat) (chunks : List (Nat × String))
    (terr : Nat) (rest : List ReadEvent)
    (hpre : ∀ ts ∈ chunks, ts.1 ≤ deadline) :
    requestReadPhase deadline
        (textEvents chunks ++ ⟨terr, ReadResult.err⟩ :: rest)
      = ⟨Except.ok (concatChunks chunks), true, graceSecs⟩ := by
  unfold requestReadPhase
  rw [readLoop_text_phase deadline chunks hpre "" _]
  simp [readLoop, String.empty_append]

/-- Witness for C10: a read error after one chunk returns `Ok "partial"`. -/
theorem request_read_error_ok_witness :
    requestReadPhase 10 (textEvents [(1, "partial")]
        ++ [⟨2, ReadResult.err⟩])
      = ⟨Except.ok "partial", true, graceSecs⟩ := by
  have h := request_read_error_ok 10 [(1, "partial")] 2 [] (by decide)
  simpa using h

/-- **C4 counterexample**: with `timeout_secs = 10` and the peer dripping
chunks "a", "b", "c" at times 4, 8 and 11, the returned text is "abc" — it
contains the chunk received at time 11, after the 10-second mark — not the
"ab" the claim requires. The loop appends a chunk before testing the
deadline, so it stops only at the first poll point after the deadline. -/
theorem request_timeout_counterexample :
    (requestReadPhase 10 [⟨4, ReadResult.okText "a"⟩, ⟨8, ReadResult.okText "b"⟩,
        ⟨11, ReadResult.okText "c"⟩]).result = Except.ok "abc" ∧
    (requestReadPhase 10 [⟨4, ReadResult.okText "a"⟩, ⟨8, ReadResult.okText "b"⟩,
        ⟨11, ReadResult.okText "c"⟩]).result ≠ Except.ok "ab" := by
  constructor
  · rfl
  · intro hcontra
    have : ("abc" : String) = "ab" := by
      have h : (Except.ok "abc" : Except String String) = Except.ok "ab" := by
        rw [← hcontra]
        rfl
      exact Except.ok.inj h
    simp at this

/-- **C4 (amended)**: on a socket that never reaches EOF, the accumulation
loop stops at the first poll point past the deadline — the worst-case
overrun is one poll — and the call returns `Ok`, never an error, with the
chunks received up to and including that first post-deadline chunk. -/
theorem request_timeout_partial (deadline : Nat) (chunks : List (Nat × String))
    (t : Nat) (s : String) (rest : List ReadEvent)
    (hpre : ∀ ts ∈ chunks, ts.1 ≤ deadline) (ht : deadline < t) :
    requestReadPhase deadline
        (textEvents chunks ++ ⟨t, ReadResult.okText s⟩ :: rest)
      = ⟨Except.ok (concatChunks chunks ++ s), true, graceSecs⟩ := by
  unfold requestReadPhase
  rw [readLoop_text_phase deadline chunks hpre "" _]
  simp only [readLoop, String.empty_append]
  rw [if_pos ht]

/-- Witness for the amended C4: the dripping-chunk scenario evaluates to
`Ok "abc"` with the teardown performed. -/
theorem request_timeout_partial_witness :
    requestReadPhase 10 [⟨4, ReadResult.okText "a"⟩, ⟨8, ReadResult.okText "b"⟩,
        ⟨11, ReadResult.okText "c"⟩]
      = ⟨Except.ok ("ab" ++ "c"), true, graceSecs⟩ := by
  have h := request_timeout_partial 10 [(4, "a"), (8, "b")] 11 "c" []
    (by decide) (by decide)
  simpa [textEvents, concatChunks] using h

/-- **C6 counterexample**: when the first read yields a non-UTF-8 chunk,
`request` takes the early `return Err("utf8 error")` inside the loop:
`socket.disconnect()` is never reached and no grace window is serviced —
contradicting "regardless of its outcome … issues a disconnect". -/
theorem request_teardown_counterexample :
    (requestReadPhase 10 [⟨1, ReadResult.okBinary⟩]).disconnected = false ∧
    (requestReadPhase 10 [⟨1, ReadResult.okBinary⟩]).grace = 0 ∧
    (requestReadPhase 10 [⟨1, ReadResult.okBinary⟩]).result
      = Except.error "utf8 error" := ⟨rfl, rfl, rfl⟩

/-- **C6 (amended)**: when the read phase ends by EOF, by a read error, or
by the deadline elapsing at a text chunk, the client disconnects the socket
and services the stack's housekeeping for the fixed 5-second grace window
before returning; but when a non-UTF-8 chunk is read, the call returns
`Err("utf8 error")` immediately, without disconnecting and without the
grace window. -/
theorem request_teardown (deadline : Nat) (chunks : List (Nat × String))
    (e : ReadEvent) (rest : List ReadEvent)
    (hpre : ∀ ts ∈ chunks, ts.1 ≤ deadline) :
    (e.res = ReadResult.ok0 ∨ e.res = ReadResult.err ∨
        (deadline < e.time ∧ ∃ s, e.res = ReadResult.okText s) →
      (requestReadPhase deadline (textEvents chunks ++ e :: rest)).disconnected = true ∧
      (requestReadPhase deadline (textEvents chunks ++ e :: rest)).grace = graceSecs) ∧
    (e.res = ReadResult.okBinary →
      requestReadPhase deadline (textEvents chunks ++ e :: rest)
        = ⟨Except.error "utf8 error", false, 0⟩) := by
  obtain ⟨t, r⟩ := e
  constructor
  · rintro (hr | hr | ⟨ht, s, hr⟩)
    · simp only at hr
      subst hr
      unfold requestReadPhase
      rw [readLoop_text_phase deadline chunks hpre "" _]
      simp [readLoop]
    · simp only at hr
      subst hr
      unfold requestReadPhase
      rw [readLoop_text_phase deadline chunks hpre "" _]
      simp [readLoop]
    · simp only at hr ht
      subst hr
      unfold requestReadPhase
      rw [readLoop_text_phase deadline chunks hpre "" _]
      simp [readLoop, ht]
  · intro hr
    simp only at hr
    subst hr
    unfold requestReadPhase
    rw [readLoop_text_phase deadline chunks hpre "" _]
    simp [readLoop]

/-- Witness for the amended C6: a timeout ending and a binary ending, each
after one in-deadline chunk. -/
theorem request_teardown_witness :
    (requestReadPhase 10 (textEvents [(1, "x")]
        ++ [⟨12, ReadResult.okText "y"⟩])).disconnected = true ∧
    requestReadPhase 10 (textEvents [(1, "x")] ++ [⟨2, ReadResult.okBinary⟩])
      = ⟨Except.error "utf8 error", false, 0⟩ := by
  constructor
  · exact ((request_teardown 10 [(1, "x")] ⟨12, ReadResult.okText "y"⟩ []
      (by decide)).1 (Or.inr (Or.inr ⟨by decide, "y", rfl⟩))).1
  · exact (request_teardown 10 [(1, "x")] ⟨2, ReadResult.okBinary⟩ []
      (by decide)).2 rfl

/-- **C7**: on a fresh session, `WsClient::connect` succeeds exactly when
all five handshake steps — opening the connection (on port 8765), building
the upgrade request with its client key, writing it, reading one response
chunk, and validating the accept value — succeed; on success the session is
marked connected with the key stored; on any failure it returns an error
and the session is unchanged: `connected` stays `false`, no key stored. -/
theorem ws_connect_correct (st : WsState) (h : HandshakeScript)
    (hkey : st.wsKey = none) (hconn : st.connected = false) :
    ((wsConnect st h).1 = Except.ok () ↔
      h.openOk = true ∧ h.clientConnectOk = true ∧ h.writeOk = true ∧
      h.readOk = true ∧ h.acceptOk = true) ∧
    ((wsConnect st h).1 = Except.ok () →
      (wsConnect st h).2.1 = ⟨some h.key, true⟩) ∧
    ((wsConnect st h).1 ≠ Except.ok () →
      (wsConnect st h).2.1 = st ∧ (wsConnect st h).2.1.connected = false ∧
      (wsConnect st h).2.1.wsKey = none) ∧
    (wsConnect st h).2.2 = wsPort ∧ wsPort = 8765 := by
  obtain ⟨o, c, w, r, a, k⟩ := h
  cases o <;> cases c <;> cases w <;> cases r <;> cases a <;>
    simp [wsConnect, wsPort, hkey, hconn]

/-- Witness for C7: a fresh session with an all-success script connects and
stores the key; with a failing accept it stays disconnected. -/
theorem ws_connect_correct_witness :
    (wsConnect wsNew ⟨true, true, true, true, true, 42⟩).2.1
      = ⟨some 42, true⟩ ∧
    (wsConnect wsNew ⟨true, true, true, true, false, 42⟩).2.1.connected = false := by
  constructor
  · exact (ws_connect_correct wsNew ⟨true, true, true, true, true, 42⟩ rfl rfl).2.1 rfl
  · exact ((ws_connect_correct wsNew ⟨true, true, true, true, false, 42⟩ rfl rfl).2.2.1
      (by simp [wsConnect])).2.1

/-- **C8**: on a connected session, `poll_recv` surfaces a fully decoded
text frame to the caller, absorbs any other frame type and any decode error
without visible effect, and in every case leaves the connected flag true —
a single malformed or non-text frame never tears down the session. -/
theorem ws_poll_recv_correct (st : WsState) (fr : FrameReadResult)
    (hconn : st.connected = true) :
    (∀ s, fr = FrameReadResult.text s → pollRecv st fr = (some s, st)) ∧
    (fr = FrameReadResult.other → pollRecv st fr = (none, st)) ∧
    (fr = FrameReadResult.decodeError → pollRecv st fr = (none, st)) ∧
    (pollRecv st fr).2.connected = true := by
  cases fr <;> simp [pollRecv, hconn]

/-- Witness for C8: a text frame is surfaced and a decode error absorbed,
both leaving the session connected. -/
theorem ws_poll_recv_correct_witness :
    pollRecv ⟨some 42, true⟩ (FrameReadResult.text "hi")
      = (some "hi", ⟨some 42, true⟩) ∧
    pollRecv ⟨some 42, true⟩ FrameReadResult.decodeError
      = (none, ⟨some 42, true⟩) ∧
    (pollRecv ⟨some 42, true⟩ FrameReadResult.decodeError).2.connected = true := by
  refine ⟨?_, ?_, ?_⟩
  · exact (ws_poll_recv_correct ⟨some 42, true⟩ (FrameReadResult.text "hi") rfl).1 "hi" rfl
  · exact (ws_poll_recv_correct ⟨some 42, true⟩ FrameReadResult.decodeError rfl).2.2.1 rfl
  · exact (ws_poll_recv_correct ⟨some 42, true⟩ FrameReadResult.decodeError rfl).2.2.2

/-! ### SD retry-loop lemmas -/

/-- A run of `n` consecutive mount failures starting at counter `a`, with
`a + n = maxAttempts`, exhausts the ceiling: the loop performs attempts up
to `maxAttempts` with a 50 ms delay after each failure but the last. -/
theorem sdLoop_all_fail (n : Nat) : ∀ (a : Nat) (rest : List MountOutcome),
    1 ≤ n → a + n = maxAttempts →
    sdLoop a (List.replicate n MountOutcome.mountFail ++ rest)
      = some ⟨maxAttempts, List.replicate (n - 1) retryDelayMs⟩ := by
  induction n with
  | zero => intro a rest h1 _; omega
  | succ m ih =>
      intro a rest _ hsum
      rw [List.replicate_succ, List.cons_append]
      simp only [sdLoop]
      by_cases hm : m = 0
      · subst hm
        rw [if_pos (by omega)]
        have ha : a + 1 = maxAttempts := by omega
        simp [ha]
      · rw [if_neg (by omega)]
        rw [ih (a + 1) rest (by omega) (by omega)]
        have hm1 : m + 1 - 1 = (m - 1) + 1 := by omega
        rw [hm1, List.replicate_succ]

/-- If the mount succeeds at attempt `a + k` (after `k - 1` failures), the
loop stops there whatever the inner chain did, with `k - 1` delays. -/
theorem sdLoop_success (k : Nat) : ∀ (a : Nat) (inner : InnerOutcome)
    (rest : List MountOutcome), 1 ≤ k → a + k ≤ maxAttempts →
    sdLoop a (List.replicate (k - 1) MountOutcome.mountFail
        ++ MountOutcome.mountOk inner :: rest)
      = some ⟨a + k, List.replicate (k - 1) retryDelayMs⟩ := by
  induction k with
  | zero => intro a inner rest h1 _; omega
  | succ m ih =>
      intro a inner rest _ hle
      by_cases hm : m = 0
      · subst hm
        simp [sdLoop]
      · have hrep : m + 1 - 1 = (m - 1) + 1 := by omega
        rw [hrep, List.replicate_succ, List.cons_append]
        simp only [sdLoop]
        rw [if_neg (by omega)]
        rw [ih (a + 1) inner rest (by omega) (by omega)]
        have h2 : a + 1 + m = a + (m + 1) := by omega
        simp [h2, List.replicate_succ]

/-- **C9**: if every mount attempt fails, `init_sd_card` performs exactly
`max_attempts = 5` mount attempts with a fixed 50 ms delay between
consecutive attempts (four delays) and then returns normally — its return
type is `()`, so no error is raised; and when the mount succeeds at attempt
`k`, the routine stops after exactly `k` attempts and returns, whatever the
inner open-root/open-file/read chain did — inner failures are neither
retried nor propagated. -/
theorem init_sd_card_retry (rest : List MountOutcome) (inner : InnerOutcome)
    (k : Nat) (hk1 : 1 ≤ k) (hk : k ≤ maxAttempts) :
    initSdCard (List.replicate maxAttempts MountOutcome.mountFail ++ rest)
      = some ⟨maxAttempts, List.replicate (maxAttempts - 1) retryDelayMs⟩ ∧
    initSdCard (List.replicate (k - 1) MountOutcome.mountFail
        ++ MountOutcome.mountOk inner :: rest)
      = some ⟨k, List.replicate (k - 1) retryDelayMs⟩ := by
  constructor
  · exact sdLoop_all_fail maxAttempts 0 rest (by norm_num [maxAttempts]) (by omega)
  · have h := sdLoop_success k 0 inner rest hk1 (by omega)
    simpa using h

/-- Witness for C9: five straight failures give five attempts and four
50 ms delays; a mount success at attempt 2 whose inner read fails stops
after two attempts. -/
theorem init_sd_card_retry_witness :
    initSdCard (List.replicate 5 MountOutcome.mountFail)
      = some ⟨5, [50, 50, 50, 50]⟩ ∧
    initSdCard [MountOutcome.mountFail,
        MountOutcome.mountOk InnerOutcome.readFail]
      = some ⟨2, [50]⟩ := by
  have h := init_sd_card_retry [] InnerOutcome.readFail 2 (by decide) (by decide)
  constructor
  · have h1 := h.1
    simpa [maxAttempts, retryDelayMs, List.replicate] using h1
  · have h2 := h.2
    simpa [retryDelayMs, List.replicate] using h2

end Esp32Slint
